import Mathlib

/-!
Shallow embedding of the OpenAI request mediator of
`src/openai/OpenAIRateLimiter.ts`, `src/openai/pricing.ts` and
`src/openai/errors.ts`.

Modelling conventions:
* JavaScript numbers that only ever hold money amounts, token counts or
  millisecond durations are modelled as `ℚ` (money, tokens) or `Int`
  (epoch milliseconds); `Number.prototype.toFixed(6)` becomes the explicit
  decimal rounding `round6`.
* `undefined`/absence is `Option`; a thrown exception is `Except.error`.
* The injected provider client and the host clock are parameters of an
  explicit environment record rather than ambient effects.
-/

set_option maxRecDepth 2000

namespace Mediator

/-! ## Pricing table and resolver (`src/openai/pricing.ts`) -/

structure TokenPricing where
  inputPer1K : ℚ
  outputPer1K : ℚ
deriving DecidableEq, Repr

/-- The static pricing snapshot `MODEL_PRICING` (USD per 1K tokens). -/
def MODEL_PRICING : List (String × TokenPricing) :=
  [ ("gpt-4o", ⟨5/1000, 15/1000⟩),
    ("gpt-4o-mini", ⟨6/10000, 24/10000⟩),
    ("gpt-4.1", ⟨2/1000, 8/1000⟩),
    ("gpt-4.1-mini", ⟨4/10000, 16/10000⟩),
    ("gpt-4.1-nano", ⟨1/10000, 4/10000⟩) ]

/-- Stable sort by length, longest first (JS `Array.prototype.sort` with
comparator `(a, b) => b.length - a.length` is stable): the list is consumed
from the right, and each element is inserted before the first element of
smaller-or-equal length, so elements of equal length keep their original
relative order. -/
def insertByLen (x : String) : List String → List String
  | [] => [x]
  | y :: ys => if y.length ≤ x.length then x :: y :: ys else y :: insertByLen x ys

def sortByLenDesc : List String → List String
  | [] => []
  | x :: xs => insertByLen x (sortByLenDesc xs)

/-- `Object.keys(MODEL_PRICING).sort((a, b) => b.length - a.length)`:
the table keys, stably sorted by length, longest first. -/
def PRICING_KEYS_BY_LENGTH : List String :=
  sortByLenDesc (MODEL_PRICING.map Prod.fst)

inductive FallbackMode where
  | mini
  | conservative
  | error
deriving DecidableEq, Repr

/-- Decimal rounding of `Number(x.toFixed(6))`: round to six decimal places,
ties toward the larger value. -/
def round6 (x : ℚ) : ℚ := (⌊x * 1000000 + 1/2⌋ : ℚ) / 1000000

/-- `model.startsWith(key)`: structural prefix test on the character
sequences (the keys are ASCII, so this coincides with the JS code-unit
test). -/
def prefixChars : List Char → List Char → Bool
  | [], _ => true
  | _ :: _, [] => false
  | c :: cs, d :: ds => c = d && prefixChars cs ds

def strStartsWith (s key : String) : Bool := prefixChars key.data s.data

/-- `resolvePricing`: exact table match, else longest-prefix match over the
length-sorted keys, else the configured fallback mode (which may throw). -/
def resolvePricing (fb : FallbackMode) (model : String) : Except String TokenPricing :=
  match MODEL_PRICING.lookup model with
  | some p => .ok p
  | none =>
    match PRICING_KEYS_BY_LENGTH.find? (fun key => strStartsWith model key) with
    | some key => .ok ((MODEL_PRICING.lookup key).getD ⟨0, 0⟩)
    | none =>
      match fb with
      | .conservative => .ok ((MODEL_PRICING.lookup "gpt-4o").getD ⟨0, 0⟩)
      | .error => .error ("Unknown OpenAI model for pricing: " ++ model)
      | .mini => .ok ((MODEL_PRICING.lookup "gpt-4o-mini").getD ⟨0, 0⟩)

/-- `estimateCostUSD`. Token counts are `ℚ` (always finite, so the source's
`Number.isFinite` guard is vacuous here); negative counts throw. -/
def estimateCostUSD (fb : FallbackMode) (model : String)
    (promptTokens completionTokens : ℚ) : Except String ℚ :=
  match resolvePricing fb model with
  | .error msg => .error msg
  | .ok pricing =>
    if promptTokens < 0 ∨ completionTokens < 0 then
      .error "Token counts must be >= 0"
    else
      .ok (round6 (promptTokens / 1000 * pricing.inputPer1K
            + completionTokens / 1000 * pricing.outputPer1K))

/-! ## Error values and the classifier (`classifyRetry` / `normalizeError`) -/

/-- Duck-typed failure value as probed by the limiter: `any?.status`,
`any?.code`, `any?.error?.code`, `any?.name`,
`any?.response?.headers?.get?.('retry-after')`, `any?.message`,
`any instanceof Error`. -/
structure ErrVal where
  status : Option Int
  code : Option String
  errorCode : Option String
  name : Option String
  retryAfterHeader : Option String
  message : Option String
  isError : Bool
deriving DecidableEq, Repr

/-- JavaScript `a || b` on optional strings (`undefined` and `''` are falsy). -/
def jsOrString (a b : Option String) : Option String :=
  match a with
  | some s => if s = "" then b else some s
  | none => b

/-- `any?.message || 'OpenAI request failed'`. -/
def msgOf (e : ErrVal) : String :=
  match e.message with
  | some s => if s = "" then "OpenAI request failed" else s
  | none => "OpenAI request failed"

/-- `parseRetryAfter`, parameterised by the host primitives `Number(·)`
(`numParse`, `none` = NaN) and `Date.parse(·)` (`dateParse`, `none` = NaN)
and by `Date.now()` (`now`). -/
def parseRetryAfter (numParse : String → Option ℚ) (dateParse : String → Option Int)
    (now : Int) (retryAfter : Option String) : Option ℚ :=
  match retryAfter with
  | none => none
  | some s =>
    if s = "" then none
    else
      match numParse s with
      | some seconds => some (max 0 (seconds * 1000))
      | none =>
        match dateParse s with
        | some dateMs => some (max 0 ((dateMs : ℚ) - (now : ℚ)))
        | none => none

structure Retryable where
  shouldRetry : Bool
  reason : String
  retryAfterMs : Option ℚ
deriving DecidableEq, Repr

/-- JavaScript truthiness of `status && status >= 500`. -/
def statusTruthyGe500 (status : Option Int) : Bool :=
  match status with
  | some s => decide (s ≠ 0 ∧ 500 ≤ s)
  | none => false

/-- `classifyRetry`. -/
def classifyRetry (numParse : String → Option ℚ) (dateParse : String → Option Int)
    (now : Int) (e : ErrVal) : Retryable :=
  let status := e.status
  let code := jsOrString e.code e.errorCode
  let name := e.name
  let retryAfterMs := parseRetryAfter numParse dateParse now e.retryAfterHeader
  if status = some 429 then ⟨true, "rate_limit", retryAfterMs⟩
  else if statusTruthyGe500 status then ⟨true, "server_error", retryAfterMs⟩
  else if name = some "AbortError" ∨ code = some "ETIMEDOUT" ∨ code = some "ECONNRESET" then
    ⟨true, "network_timeout", none⟩
  else ⟨false, "non_retryable", none⟩

/-- The error shapes that can cross the mediator's boundary: the six
`errors.ts` classes, a freshly constructed generic `Error(message)`, or the
raw caught value passed through when it is already an `Error` instance. -/
inductive NormalizedError where
  | budgetExceeded
  | invalidApiKey
  | invalidRequest (message : String)
  | rateLimit (message : String) (retryAfterMs : Option ℚ)
  | serverError (status : Int) (message : String)
  | networkTimeout
  | generic (message : String)
  | raw (e : ErrVal)
deriving DecidableEq, Repr

/-- `normalizeError`. Note that unlike `classifyRetry` it inspects only
`any?.code` (not `any?.error?.code`), and its final branch returns the raw
value unchanged when it is an `Error` instance. -/
def normalizeError (numParse : String → Option ℚ) (dateParse : String → Option Int)
    (now : Int) (e : ErrVal) : NormalizedError :=
  let status := e.status
  let message := msgOf e
  if status = some 401 then .invalidApiKey
  else if status = some 400 then .invalidRequest message
  else if status = some 429 then
    .rateLimit message (parseRetryAfter numParse dateParse now e.retryAfterHeader)
  else if statusTruthyGe500 status then
    .serverError (status.getD 0) message
  else if e.name = some "AbortError" ∨ e.code = some "ETIMEDOUT" ∨ e.code = some "ECONNRESET" then
    .networkTimeout
  else if e.isError then .raw e
  else .generic message

/-! ## Limiter state, storage and clock (`OpenAIRateLimiter`) -/

/-- A `Date`, reduced to the two accessors the limiter reads:
`getUTCFullYear()` and `getUTCMonth()` (0-based). -/
structure Date where
  utcFullYear : Int
  utcMonth : Nat
deriving DecidableEq, Repr

/-- `String.prototype.padStart(2, '0')`. -/
def padStart2 (s : String) : String :=
  if 2 ≤ s.length then s else String.mk (List.replicate (2 - s.length) '0') ++ s

/-- `getMonthKey`: UTC calendar month as `YYYY-MM`. -/
def getMonthKey (d : Date) : String :=
  toString d.utcFullYear ++ "-" ++ padStart2 (toString (d.utcMonth + 1))

/-- The in-memory spend `Storage` (a `Map<string, number>`); `save` is
`Map.set`: overwrite in place, else append. The file-backed variant differs
only in persistence across processes, which is outside this embedding. -/
def storageSave (k : String) (v : ℚ) : List (String × ℚ) → List (String × ℚ)
  | [] => [(k, v)]
  | (k', v') :: rest => if k' = k then (k, v) :: rest else (k', v') :: storageSave k v rest

/-- Mutable fields of one `OpenAIRateLimiter` instance. The `requestQueue`
of placeholder tokens is visibility-only (each token is removed before the
waiter re-checks) and is not modelled. -/
structure LimiterState where
  requestsPerMinute : Int
  monthlyBudget : ℚ
  monthlySpend : ℚ
  lastMinuteTimestamps : List Int
  maxRetries : Int
  currentMonthKey : String
  storage : List (String × ℚ)
deriving DecidableEq, Repr

/-- `rotateMonthIfNeeded` (`nowKey` is `getMonthKey(new Date())`). -/
def rotateMonthIfNeeded (d : Date) (st : LimiterState) : LimiterState :=
  if getMonthKey d ≠ st.currentMonthKey then
    { st with
      currentMonthKey := getMonthKey d,
      monthlySpend := (st.storage.lookup (getMonthKey d)).getD 0 }
  else st

/-- `recordSpend` (the in-memory `storage.save` cannot fail; the file
backend's failures are logged and swallowed, leaving the same state). -/
def recordSpend (d : Date) (deltaUSD : ℚ) (st : LimiterState) : LimiterState :=
  let st1 := rotateMonthIfNeeded d st
  let spend := round6 (st1.monthlySpend + deltaUSD)
  { st1 with
    monthlySpend := spend,
    storage := storageSave st1.currentMonthKey spend st1.storage }

/-! ## Rate gate (`waitForRateLimit`) -/

/-- One iteration of the `waitForRateLimit` loop at clock reading `now`:
either the caller is admitted (`none`, a timestamp is pushed) or it must
sleep the returned number of milliseconds and re-check. -/
def waitStep (now : Int) (st : LimiterState) : Option Int × LimiterState :=
  if st.requestsPerMinute ≤ 0 then (none, st)
  else
    let pruned := st.lastMinuteTimestamps.filter (fun t => decide (now - t < 60000))
    if (pruned.length : Int) < st.requestsPerMinute then
      (none, { st with lastMinuteTimestamps := pruned ++ [now] })
    else
      let oldest := pruned.headI
      (some (max 0 (60000 - (now - oldest))), { st with lastMinuteTimestamps := pruned })

/-- The full `waitForRateLimit` loop, driven by the list of clock readings
`Date.now()` returns at the successive iterations; `none` means the supplied
trace ended before a slot was acquired. Returns the admitted state and the
number of capacity checks performed. -/
def waitLoop : List Int → LimiterState → Option (LimiterState × Nat)
  | [], _ => none
  | now :: rest, st =>
    match waitStep now st with
    | (none, st') => some (st', 1)
    | (some _, st') => (waitLoop rest st').map (fun p => (p.1, p.2 + 1))

/-! ## Provider responses and the retry loop -/

structure Usage where
  prompt_tokens : ℚ
  completion_tokens : ℚ
  total_tokens : ℚ
deriving DecidableEq, Repr

structure OpenAIResponse where
  model : String
  usage : Option Usage
deriving DecidableEq, Repr

inductive AttemptResult where
  | ok (resp : OpenAIResponse)
  | err (e : ErrVal)
deriving DecidableEq

/-- The external world of one `makeRequest` call: host parsers, the clock
readings consumed at each program point, the per-attempt outcomes of the
injected client, and the call options. -/
structure Env where
  numParse : String → Option ℚ
  dateParse : String → Option Int
  d0 : Date
  dRec : Date
  nowErr : Int
  checks : List Int
  attempts : Nat → AttemptResult
  maxRetriesOpt : Option Int
  fb : FallbackMode

/-- The `Error` thrown by `estimateCostUSD`, as seen by the duck-typing
probes of the catch handler. -/
def pricingErrVal (msg : String) : ErrVal :=
  ⟨none, none, none, some "Error", none, some msg, true⟩

/-- The body of one `try` block of the retry loop: perform the request and,
on success, bill the usage (`usage` defaults to zeros) and record spend.
A throw from `estimateCostUSD` surfaces as a caught error. -/
def tryBody (env : Env) (idx : Nat) (st : LimiterState) :
    Except ErrVal (OpenAIResponse × LimiterState) :=
  match env.attempts idx with
  | .err e => .error e
  | .ok resp =>
    match estimateCostUSD env.fb resp.model (resp.usage.getD ⟨0, 0, 0⟩).prompt_tokens
        (resp.usage.getD ⟨0, 0, 0⟩).completion_tokens with
    | .error msg => .error (pricingErrVal msg)
    | .ok cost => .ok (resp, recordSpend env.dRec cost st)

/-- The `while (attempt < maxAttempts)` loop of `retryWithBackoff`.
`fuel + 1` is the number of attempts still allowed; `idx` is the 0-based
index of the current attempt. On a retryable failure with attempts left the
caller sleeps (Retry-After verbatim, else capped exponential backoff with
jitter — timing only, no state effect) and loops. Returns the raw last error
or the response, the final state, and the number of client calls made. -/
def retryAux (env : Env) : Nat → Nat → LimiterState →
    Except ErrVal OpenAIResponse × LimiterState × Nat
  | 0, _, st => (.error (pricingErrVal "unreachable"), st, 0)
  | fuel + 1, idx, st =>
    match tryBody env idx st with
    | .ok (resp, st') => (.ok resp, st', 1)
    | .error e =>
      if (classifyRetry env.numParse env.dateParse env.nowErr e).shouldRetry ∧ 0 < fuel then
        match retryAux env fuel (idx + 1) st with
        | (out, st', n) => (out, st', n + 1)
      else (.error e, st, 1)

/-- `retryWithBackoff`: clamp the attempt bound to at least 1, run the loop,
and normalize the last failure. -/
def retryWithBackoff (env : Env) (st : LimiterState) :
    Except NormalizedError OpenAIResponse × LimiterState × Nat :=
  match retryAux env (max 1 (env.maxRetriesOpt.getD st.maxRetries)).toNat 0 st with
  | (.ok resp, st', n) => (.ok resp, st', n)
  | (.error e, st', n) =>
    (.error (normalizeError env.numParse env.dateParse env.nowErr e), st', n)

/-- Counters observed during one `makeRequest` call. -/
structure CallTrace where
  clientCalls : Nat
  admissionChecks : Nat
deriving DecidableEq, Repr

/-- The tail of `makeRequest` after the budget gate has passed: rate-gate
admission, then the retry loop. -/
def proceedAfterBudgetGate (env : Env) (st0 : LimiterState) :
    Option (Except NormalizedError OpenAIResponse × LimiterState × CallTrace) :=
  match waitLoop env.checks st0 with
  | none => none
  | some (st1, nChecks) =>
    match retryWithBackoff env st1 with
    | (out, st2, nCalls) => some (out, st2, ⟨nCalls, nChecks⟩)

/-- `makeRequest`: rotate the month, gate on the budget, then admit and run
the retry loop. `none` means the admission-check clock trace ran out while
still waiting. -/
def makeRequest (env : Env) (st : LimiterState) :
    Option (Except NormalizedError OpenAIResponse × LimiterState × CallTrace) :=
  if (rotateMonthIfNeeded env.d0 st).monthlyBudget
      ≤ (rotateMonthIfNeeded env.d0 st).monthlySpend then
    some (.error .budgetExceeded, rotateMonthIfNeeded env.d0 st, ⟨0, 0⟩)
  else proceedAfterBudgetGate env (rotateMonthIfNeeded env.d0 st)

/-- Modelled from the spec: `recordUsage` is named in the spec's public
contract and exercised by `__tests__/limiter.storage.test.ts` and
`langchain/rateLimitAdapter.ts`, but its body is absent from
`OpenAIRateLimiter.ts` under `src/`. Per the spec it computes the cost via
the Pricing Resolver and adds it to the current month's recorded spend; per
its test, a throwing Pricing Resolver is logged as a warning and leaves the
state unchanged. -/
def recordUsage (fb : FallbackMode) (d : Date) (model : String)
    (promptTokens completionTokens : ℚ) (st : LimiterState) : LimiterState :=
  match estimateCostUSD fb model promptTokens completionTokens with
  | .ok cost => recordSpend d cost st
  | .error _ => st

/-- Harness for the rate gate under many concurrent callers: `checks` is the
time-ordered sequence of clock readings at which some caller executes one
iteration of the `waitForRateLimit` loop body over the shared window; the
result is the sequence of admission timestamps. -/
def windowState (rpm : Int) (window : List Int) : LimiterState :=
  { requestsPerMinute := rpm, monthlyBudget := 0, monthlySpend := 0,
    lastMinuteTimestamps := window, maxRetries := 0, currentMonthKey := "",
    storage := [] }

def admittedTimes (rpm : Int) : List Int → List Int → List Int
  | [], _ => []
  | now :: rest, window =>
    match waitStep now (windowState rpm window) with
    | (none, st') => now :: admittedTimes rpm rest st'.lastMinuteTimestamps
    | (some _, st') => admittedTimes rpm rest st'.lastMinuteTimestamps

/-! ## Helper lemmas -/

theorem rotateMonthIfNeeded_window_storage (d : Date) (st : LimiterState) :
    (rotateMonthIfNeeded d st).lastMinuteTimestamps = st.lastMinuteTimestamps
    ∧ (rotateMonthIfNeeded d st).storage = st.storage
    ∧ (rotateMonthIfNeeded d st).monthlyBudget = st.monthlyBudget
    ∧ (rotateMonthIfNeeded d st).maxRetries = st.maxRetries := by
  unfold rotateMonthIfNeeded
  split <;> exact ⟨rfl, rfl, rfl, rfl⟩

theorem rotateMonthIfNeeded_of_eq {d : Date} {st : LimiterState}
    (h : getMonthKey d = st.currentMonthKey) : rotateMonthIfNeeded d st = st := by
  unfold rotateMonthIfNeeded
  split
  · exact absurd h (by assumption)
  · rfl

theorem rotateMonthIfNeeded_of_ne {d : Date} {st : LimiterState}
    (h : getMonthKey d ≠ st.currentMonthKey) :
    rotateMonthIfNeeded d st =
      { st with currentMonthKey := getMonthKey d,
                monthlySpend := (st.storage.lookup (getMonthKey d)).getD 0 } := by
  unfold rotateMonthIfNeeded
  split
  · rfl
  · rename_i hcontra
    exact absurd h hcontra

theorem storageSave_lookup (k : String) (v : ℚ) :
    ∀ s : List (String × ℚ), (storageSave k v s).lookup k = some v := by
  intro s
  induction s with
  | nil => simp [storageSave, List.lookup]
  | cons hd tl ih =>
    obtain ⟨k', v'⟩ := hd
    unfold storageSave
    split
    · simp [List.lookup]
    · rename_i hne
      have hbeq : (k == k') = false := by
        simp [beq_iff_eq]; exact fun hh => hne hh.symm
      simp [List.lookup, hbeq, ih]

theorem recordSpend_spec (d : Date) (delta : ℚ) (st : LimiterState) :
    (recordSpend d delta st).monthlySpend
      = round6 ((rotateMonthIfNeeded d st).monthlySpend + delta)
    ∧ (recordSpend d delta st).storage.lookup (rotateMonthIfNeeded d st).currentMonthKey
      = some (round6 ((rotateMonthIfNeeded d st).monthlySpend + delta)) := by
  refine ⟨rfl, ?_⟩
  exact storageSave_lookup _ _ _

theorem retryAux_succ_ok (env : Env) (n idx : Nat) (st : LimiterState)
    (pr : OpenAIResponse × LimiterState) (htb : tryBody env idx st = .ok pr) :
    retryAux env (n + 1) idx st = (.ok pr.1, pr.2, 1) := by
  obtain ⟨resp, st2⟩ := pr
  unfold retryAux
  simp only [htb]

theorem retryAux_succ_err_stop (env : Env) (n idx : Nat) (st : LimiterState) (e0 : ErrVal)
    (htb : tryBody env idx st = .error e0)
    (hcond : ¬((classifyRetry env.numParse env.dateParse env.nowErr e0).shouldRetry = true
        ∧ 0 < n)) :
    retryAux env (n + 1) idx st = (.error e0, st, 1) := by
  unfold retryAux
  simp only [htb]
  rw [if_neg hcond]

theorem retryAux_succ_err_retry (env : Env) (n idx : Nat) (st : LimiterState) (e0 : ErrVal)
    (htb : tryBody env idx st = .error e0)
    (hcond : (classifyRetry env.numParse env.dateParse env.nowErr e0).shouldRetry = true
        ∧ 0 < n) :
    retryAux env (n + 1) idx st
      = ((retryAux env n (idx + 1) st).1, (retryAux env n (idx + 1) st).2.1,
         (retryAux env n (idx + 1) st).2.2 + 1) := by
  conv_lhs => unfold retryAux
  simp only [htb]
  rw [if_pos hcond]

/-! ## C1: the budget gate is strict and atomic -/

/-- C1. If the current month's spend (after month rotation) has reached the
configured budget, `makeRequest` fails with `BudgetExceeded`: no client
call, no admission check, and neither the rate window nor the spend ledger
is touched. -/
theorem budget_gate_strict (env : Env) (st : LimiterState)
    (h : (rotateMonthIfNeeded env.d0 st).monthlyBudget
          ≤ (rotateMonthIfNeeded env.d0 st).monthlySpend) :
    makeRequest env st
      = some (.error .budgetExceeded, rotateMonthIfNeeded env.d0 st, ⟨0, 0⟩)
    ∧ (rotateMonthIfNeeded env.d0 st).lastMinuteTimestamps = st.lastMinuteTimestamps
    ∧ (rotateMonthIfNeeded env.d0 st).storage = st.storage := by
  refine ⟨?_, (rotateMonthIfNeeded_window_storage env.d0 st).1,
    (rotateMonthIfNeeded_window_storage env.d0 st).2.1⟩
  unfold makeRequest
  exact if_pos h

def c1St : LimiterState :=
  { requestsPerMinute := 50, monthlyBudget := 100, monthlySpend := 100,
    lastMinuteTimestamps := [5], maxRetries := 3, currentMonthKey := "2025-09",
    storage := [("2025-09", 100)] }

def c1Env : Env :=
  { numParse := fun _ => none, dateParse := fun _ => none,
    d0 := ⟨2025, 8⟩, dRec := ⟨2025, 8⟩, nowErr := 0, checks := [0],
    attempts := fun _ => .err ⟨some 500, none, none, none, none, none, true⟩,
    maxRetriesOpt := none, fb := .mini }

theorem budget_gate_strict_witness :
    makeRequest c1Env c1St
      = some (.error .budgetExceeded, rotateMonthIfNeeded c1Env.d0 c1St, ⟨0, 0⟩)
    ∧ (rotateMonthIfNeeded c1Env.d0 c1St).lastMinuteTimestamps = c1St.lastMinuteTimestamps
    ∧ (rotateMonthIfNeeded c1Env.d0 c1St).storage = c1St.storage :=
  budget_gate_strict c1Env c1St (of_decide_eq_true (by with_unfolding_all rfl))

/-! ## C10: the retry-attempt bound is clamped to at least one -/

theorem retryAux_calls_bound (env : Env) :
    ∀ (fuel idx : Nat) (st : LimiterState), 1 ≤ fuel →
      1 ≤ (retryAux env fuel idx st).2.2 ∧ (retryAux env fuel idx st).2.2 ≤ fuel := by
  intro fuel
  induction fuel with
  | zero => intro idx st h; omega
  | succ n ih =>
    intro idx st _
    cases htb : tryBody env idx st with
    | ok pr =>
      rw [retryAux_succ_ok env n idx st pr htb]
      exact ⟨Nat.le_refl 1, Nat.succ_le_succ (Nat.zero_le n)⟩
    | error e =>
      by_cases hcond : (classifyRetry env.numParse env.dateParse env.nowErr e).shouldRetry = true
          ∧ 0 < n
      · rw [retryAux_succ_err_retry env n idx st e htb hcond]
        have hrec := ih (idx + 1) st hcond.2
        exact ⟨Nat.le_succ_of_le hrec.1, Nat.succ_le_succ hrec.2⟩
      · rw [retryAux_succ_err_stop env n idx st e htb hcond]
        exact ⟨Nat.le_refl 1, Nat.succ_le_succ (Nat.zero_le n)⟩

/-- C10. The attempt bound of the retry loop is `max(1, options.maxRetries ??
defaultMaxRetries)`, so every call performs at least one and at most that
many client attempts, even for zero or negative configured retries. -/
theorem attempt_bound_clamped (env : Env) (st : LimiterState) :
    1 ≤ (retryWithBackoff env st).2.2
    ∧ (retryWithBackoff env st).2.2 ≤ (max 1 (env.maxRetriesOpt.getD st.maxRetries)).toNat := by
  have hfuel : 1 ≤ (max 1 (env.maxRetriesOpt.getD st.maxRetries)).toNat := by
    have : (1 : Int) ≤ max 1 (env.maxRetriesOpt.getD st.maxRetries) := le_max_left _ _
    omega
  have h := retryAux_calls_bound env (max 1 (env.maxRetriesOpt.getD st.maxRetries)).toNat 0 st hfuel
  unfold retryWithBackoff
  rcases hr : retryAux env (max 1 (env.maxRetriesOpt.getD st.maxRetries)).toNat 0 st
    with ⟨out, st2, n2⟩
  rw [hr] at h
  cases out <;> simpa using h

/-! ## C8: month rollover self-resets the budget -/

/-- C8. Both the budget check (via `makeRequest`) and spend recording first
rotate the cached month-key: on a key change the ledger entry for the new
month is reloaded (defaulting to zero), so spend recorded under an old
month-key does not count against a budget check after rollover. -/
theorem month_rollover_resets_budget :
    (∀ (d : Date) (st : LimiterState), getMonthKey d ≠ st.currentMonthKey →
        rotateMonthIfNeeded d st =
          { st with currentMonthKey := getMonthKey d,
                    monthlySpend := (st.storage.lookup (getMonthKey d)).getD 0 })
    ∧ (∀ (d : Date) (st : LimiterState), getMonthKey d = st.currentMonthKey →
        rotateMonthIfNeeded d st = st)
    ∧ (∀ (d : Date) (delta : ℚ) (st : LimiterState),
        recordSpend d delta st =
          { rotateMonthIfNeeded d st with
            monthlySpend := round6 ((rotateMonthIfNeeded d st).monthlySpend + delta),
            storage := storageSave (rotateMonthIfNeeded d st).currentMonthKey
              (round6 ((rotateMonthIfNeeded d st).monthlySpend + delta))
              (rotateMonthIfNeeded d st).storage })
    ∧ (∀ (env : Env) (st : LimiterState),
        getMonthKey env.d0 ≠ st.currentMonthKey →
        st.storage.lookup (getMonthKey env.d0) = none →
        0 < st.monthlyBudget →
        makeRequest env st = proceedAfterBudgetGate env (rotateMonthIfNeeded env.d0 st)) := by
  refine ⟨fun d st h => rotateMonthIfNeeded_of_ne h,
    fun d st h => rotateMonthIfNeeded_of_eq h, fun d delta st => rfl, ?_⟩
  intro env st hkey hnone hpos
  have hrot := rotateMonthIfNeeded_of_ne hkey
  have hspend : (rotateMonthIfNeeded env.d0 st).monthlySpend = 0 := by
    rw [hrot]; simp [hnone]
  have hbudget : (rotateMonthIfNeeded env.d0 st).monthlyBudget = st.monthlyBudget :=
    (rotateMonthIfNeeded_window_storage env.d0 st).2.2.1
  unfold makeRequest
  rw [if_neg]
  rw [hspend, hbudget]
  exact not_le.mpr hpos

def c8St : LimiterState :=
  { requestsPerMinute := 0, monthlyBudget := 100, monthlySpend := 250,
    lastMinuteTimestamps := [], maxRetries := 3, currentMonthKey := "2025-09",
    storage := [("2025-09", 250)] }

def c8Env : Env :=
  { numParse := fun _ => none, dateParse := fun _ => none,
    d0 := ⟨2025, 9⟩, dRec := ⟨2025, 9⟩, nowErr := 0, checks := [0],
    attempts := fun _ => .err ⟨some 400, none, none, none, none, some "bad", true⟩,
    maxRetriesOpt := none, fb := .mini }

theorem month_rollover_resets_budget_witness :
    rotateMonthIfNeeded c8Env.d0 c8St =
      { c8St with currentMonthKey := getMonthKey c8Env.d0,
                  monthlySpend := (c8St.storage.lookup (getMonthKey c8Env.d0)).getD 0 }
    ∧ makeRequest c8Env c8St = proceedAfterBudgetGate c8Env (rotateMonthIfNeeded c8Env.d0 c8St) :=
  ⟨month_rollover_resets_budget.1 c8Env.d0 c8St (of_decide_eq_true (by with_unfolding_all rfl)),
   month_rollover_resets_budget.2.2.2 c8Env c8St
     (of_decide_eq_true (by with_unfolding_all rfl))
     (by with_unfolding_all rfl)
     (of_decide_eq_true (by with_unfolding_all rfl))⟩

/-! ## C4: `recordUsage` performs post-hoc billing -/

/-- C4. `recordUsage model promptTokens completionTokens` computes the cost
via the Pricing Resolver for those inputs and adds it to the current month's
recorded spend (both in memory and in the ledger entry). Modelled from the
spec, as the method body is absent from `src/` (see `recordUsage`). -/
theorem recordUsage_bills_current_month (fb : FallbackMode) (d : Date) (model : String)
    (p c : ℚ) (st : LimiterState) (cost : ℚ)
    (h : estimateCostUSD fb model p c = .ok cost) :
    recordUsage fb d model p c st = recordSpend d cost st
    ∧ (recordUsage fb d model p c st).monthlySpend
        = round6 ((rotateMonthIfNeeded d st).monthlySpend + cost)
    ∧ (recordUsage fb d model p c st).storage.lookup (rotateMonthIfNeeded d st).currentMonthKey
        = some (round6 ((rotateMonthIfNeeded d st).monthlySpend + cost)) := by
  have heq : recordUsage fb d model p c st = recordSpend d cost st := by
    unfold recordUsage
    rw [h]
  refine ⟨heq, ?_, ?_⟩
  · rw [heq]; exact (recordSpend_spec d cost st).1
  · rw [heq]; exact (recordSpend_spec d cost st).2

def c4St : LimiterState :=
  { requestsPerMinute := 0, monthlyBudget := 1000, monthlySpend := 1/10,
    lastMinuteTimestamps := [], maxRetries := 3, currentMonthKey := "2025-09",
    storage := [("2025-09", 1/10)] }

theorem recordUsage_bills_current_month_witness :
    recordUsage .mini ⟨2025, 8⟩ "gpt-4o-mini" 1000 1000 c4St
      = recordSpend ⟨2025, 8⟩ (3/1000) c4St
    ∧ (recordUsage .mini ⟨2025, 8⟩ "gpt-4o-mini" 1000 1000 c4St).monthlySpend
        = round6 ((rotateMonthIfNeeded ⟨2025, 8⟩ c4St).monthlySpend + 3/1000)
    ∧ (recordUsage .mini ⟨2025, 8⟩ "gpt-4o-mini" 1000 1000 c4St).storage.lookup
          (rotateMonthIfNeeded ⟨2025, 8⟩ c4St).currentMonthKey
        = some (round6 ((rotateMonthIfNeeded ⟨2025, 8⟩ c4St).monthlySpend + 3/1000)) :=
  recordUsage_bills_current_month .mini ⟨2025, 8⟩ "gpt-4o-mini" 1000 1000 c4St (3/1000)
    (by with_unfolding_all rfl)

/-! ## C6: pricing resolution order -/

theorem find?_longest {p : String → Bool} :
    ∀ {l : List String}, l.Pairwise (fun a b => b.length ≤ a.length) →
      ∀ {k : String}, l.find? p = some k →
        ∀ k' ∈ l, p k' = true → k'.length ≤ k.length := by
  intro l
  induction l with
  | nil => intro _ k hk; simp [List.find?] at hk
  | cons x xs ih =>
    intro hpw k hk k' hk' hpk'
    rw [List.pairwise_cons] at hpw
    rw [List.find?_cons] at hk
    cases hpx : p x with
    | true =>
      rw [hpx] at hk
      injection hk with hk
      subst hk
      rcases List.mem_cons.mp hk' with h | h
      · subst h; exact le_refl _
      · exact hpw.1 k' h
    | false =>
      rw [hpx] at hk
      rcases List.mem_cons.mp hk' with h | h
      · subst h; rw [hpk'] at hpx; cases hpx
      · exact ih hpw.2 hk k' h hpk'


theorem pricing_keys_sorted :
    PRICING_KEYS_BY_LENGTH.Pairwise (fun a b => b.length ≤ a.length) := by
  have h : PRICING_KEYS_BY_LENGTH
      = ["gpt-4.1-mini", "gpt-4.1-nano", "gpt-4o-mini", "gpt-4.1", "gpt-4o"] := by
    with_unfolding_all rfl
  rw [h]
  decide

/-- C6 counterexample: with fallback mode `mini` and a model name matching
no table key and no prefix, `resolvePricing` returns the `gpt-4o-mini` entry,
which is not the cheapest table entry — `gpt-4.1-nano` is strictly cheaper
on both rates. -/
theorem mini_fallback_not_cheapest :
    resolvePricing .mini "claude-3" = .ok ⟨6/10000, 24/10000⟩
    ∧ ("gpt-4.1-nano", (⟨1/10000, 4/10000⟩ : TokenPricing)) ∈ MODEL_PRICING
    ∧ (1/10000 : ℚ) < 6/10000 ∧ (4/10000 : ℚ) < 24/10000 :=
  ⟨by with_unfolding_all rfl,
   by unfold MODEL_PRICING; norm_num,
   of_decide_eq_true (by with_unfolding_all rfl),
   of_decide_eq_true (by with_unfolding_all rfl)⟩

/-- C6 (amended). Resolution order: exact table match; else the entry of the
longest registered prefix the model name starts with; else, per fallback
mode, `mini` uses the `gpt-4o-mini` entry (not the cheapest — see the
counterexample), `conservative` uses the `gpt-4o` entry (which is the most
expensive known entry), and `error` raises a configuration error. -/
theorem pricing_resolution_amended :
    (∀ (fb : FallbackMode) (model : String) (p : TokenPricing),
        MODEL_PRICING.lookup model = some p → resolvePricing fb model = .ok p)
    ∧ (∀ (fb : FallbackMode) (model key : String),
        MODEL_PRICING.lookup model = none →
        PRICING_KEYS_BY_LENGTH.find? (fun k => strStartsWith model k) = some key →
        resolvePricing fb model = .ok ((MODEL_PRICING.lookup key).getD ⟨0, 0⟩)
        ∧ strStartsWith model key = true
        ∧ ∀ k' ∈ PRICING_KEYS_BY_LENGTH, strStartsWith model k' = true →
            k'.length ≤ key.length)
    ∧ (∀ model : String,
        MODEL_PRICING.lookup model = none →
        PRICING_KEYS_BY_LENGTH.find? (fun k => strStartsWith model k) = none →
        resolvePricing .mini model = .ok ⟨6/10000, 24/10000⟩
        ∧ resolvePricing .conservative model = .ok ⟨5/1000, 15/1000⟩
        ∧ (∀ kp ∈ MODEL_PRICING,
            kp.2.inputPer1K ≤ (5 : ℚ)/1000 ∧ kp.2.outputPer1K ≤ (15 : ℚ)/1000)
        ∧ resolvePricing .error model = .error ("Unknown OpenAI model for pricing: " ++ model)) := by
  refine ⟨?_, ?_, ?_⟩
  · intro fb model p h
    unfold resolvePricing
    rw [h]
  · intro fb model key hnone hfind
    refine ⟨?_, List.find?_some hfind, find?_longest pricing_keys_sorted hfind⟩
    unfold resolvePricing
    rw [hnone, hfind]
  · intro model hnone hfind
    refine ⟨?_, ?_, of_decide_eq_true (by with_unfolding_all rfl), ?_⟩
    · unfold resolvePricing
      rw [hnone, hfind]
      with_unfolding_all rfl
    · unfold resolvePricing
      rw [hnone, hfind]
      with_unfolding_all rfl
    · unfold resolvePricing
      rw [hnone, hfind]

def c6Model : String := "gpt-4o-mini-2025-01"

theorem pricing_resolution_amended_witness :
    resolvePricing .mini c6Model = .ok ((MODEL_PRICING.lookup "gpt-4o-mini").getD ⟨0, 0⟩)
    ∧ strStartsWith c6Model "gpt-4o-mini" = true
    ∧ (∀ k' ∈ PRICING_KEYS_BY_LENGTH, strStartsWith c6Model k' = true →
        k'.length ≤ ("gpt-4o-mini" : String).length)
    ∧ resolvePricing .error "claude-3" = .error "Unknown OpenAI model for pricing: claude-3" := by
  have h2 := pricing_resolution_amended.2.1 .mini c6Model "gpt-4o-mini"
    (by with_unfolding_all rfl) (by with_unfolding_all rfl)
  have h3 := pricing_resolution_amended.2.2 "claude-3"
    (by with_unfolding_all rfl) (by with_unfolding_all rfl)
  exact ⟨h2.1, h2.2.1, h2.2.2, h3.2.2.2.trans (by with_unfolding_all rfl)⟩

/-! ## C7: retry classification follows the priority rules -/

/-- C7. `classifyRetry` decides, in priority order: status 429 → retry as
`rate_limit` with the parsed Retry-After delay (numeric seconds → ms, else
HTTP date → `max 0 (date - now)`, else none — always floored at 0);
truthy status ≥ 500 → retry as `server_error`; abort-type name or
`ETIMEDOUT`/`ECONNRESET` code → retry as `network_timeout` with no
retry-after; anything else (in particular statuses 400 and 401) → no
retry. -/
theorem classify_priority (np : String → Option ℚ) (dp : String → Option Int) (now : Int) :
    (∀ e : ErrVal, e.status = some 429 →
        classifyRetry np dp now e
          = ⟨true, "rate_limit", parseRetryAfter np dp now e.retryAfterHeader⟩)
    ∧ (∀ (s : String) (q : ℚ), s ≠ "" → np s = some q →
        parseRetryAfter np dp now (some s) = some (max 0 (q * 1000)))
    ∧ (∀ (s : String) (ms : Int), s ≠ "" → np s = none → dp s = some ms →
        parseRetryAfter np dp now (some s) = some (max 0 ((ms : ℚ) - (now : ℚ))))
    ∧ (∀ s : String, np s = none → dp s = none →
        parseRetryAfter np dp now (some s) = none)
    ∧ (∀ (e : ErrVal) (s : Int), e.status = some s → 500 ≤ s →
        classifyRetry np dp now e
          = ⟨true, "server_error", parseRetryAfter np dp now e.retryAfterHeader⟩)
    ∧ (∀ e : ErrVal, e.status ≠ some 429 → statusTruthyGe500 e.status = false →
        (e.name = some "AbortError" ∨ jsOrString e.code e.errorCode = some "ETIMEDOUT"
          ∨ jsOrString e.code e.errorCode = some "ECONNRESET") →
        classifyRetry np dp now e = ⟨true, "network_timeout", none⟩)
    ∧ (∀ e : ErrVal, e.status ≠ some 429 → statusTruthyGe500 e.status = false →
        e.name ≠ some "AbortError" → jsOrString e.code e.errorCode ≠ some "ETIMEDOUT" →
        jsOrString e.code e.errorCode ≠ some "ECONNRESET" →
        classifyRetry np dp now e = ⟨false, "non_retryable", none⟩)
    ∧ (∀ e : ErrVal, (e.status = some 400 ∨ e.status = some 401) →
        e.name ≠ some "AbortError" → jsOrString e.code e.errorCode ≠ some "ETIMEDOUT" →
        jsOrString e.code e.errorCode ≠ some "ECONNRESET" →
        classifyRetry np dp now e = ⟨false, "non_retryable", none⟩) := by
  have hcls : ∀ e : ErrVal, classifyRetry np dp now e
      = (if e.status = some 429 then
          ⟨true, "rate_limit", parseRetryAfter np dp now e.retryAfterHeader⟩
        else if statusTruthyGe500 e.status then
          ⟨true, "server_error", parseRetryAfter np dp now e.retryAfterHeader⟩
        else if e.name = some "AbortError" ∨ jsOrString e.code e.errorCode = some "ETIMEDOUT"
            ∨ jsOrString e.code e.errorCode = some "ECONNRESET" then
          ⟨true, "network_timeout", none⟩
        else ⟨false, "non_retryable", none⟩ : Retryable) := fun e => rfl
  have hpra : ∀ s : String, parseRetryAfter np dp now (some s)
      = if s = "" then none
        else match np s with
          | some seconds => some (max 0 (seconds * 1000))
          | none =>
            match dp s with
            | some dateMs => some (max 0 ((dateMs : ℚ) - (now : ℚ)))
            | none => none := fun s => rfl
  refine ⟨?_, ?_, ?_, ?_, ?_, ?_, ?_, ?_⟩
  · intro e h
    rw [hcls e, if_pos h]
  · intro s q hs hnp
    rw [hpra s, if_neg hs, hnp]
  · intro s ms hs hnp hdp
    rw [hpra s, if_neg hs, hnp, hdp]
  · intro s hnp hdp
    by_cases hs : s = ""
    · rw [hpra s, if_pos hs]
    · rw [hpra s, if_neg hs, hnp, hdp]
  · intro e s hst hge
    have h429 : ¬ e.status = some 429 := by
      rw [hst]; intro hcontra; injection hcontra with hv; omega
    have htr : statusTruthyGe500 e.status = true := by
      rw [hst]; unfold statusTruthyGe500; simp only [decide_eq_true_eq]; omega
    rw [hcls e, if_neg h429, if_pos htr]
  · intro e h429 hge hsig
    rw [hcls e, if_neg h429, hge]
    simp only [Bool.false_eq_true, if_false]
    rw [if_pos hsig]
  · intro e h429 hge hname hc1 hc2
    rw [hcls e, if_neg h429, hge]
    simp only [Bool.false_eq_true, if_false]
    rw [if_neg (by tauto)]
  · intro e hst hname hc1 hc2
    have h429 : ¬ e.status = some 429 := by
      rcases hst with h | h <;> rw [h] <;> intro hcontra <;> injection hcontra with hv <;> omega
    have hge : statusTruthyGe500 e.status = false := by
      rcases hst with h | h <;> rw [h] <;> unfold statusTruthyGe500 <;>
        simp only [decide_eq_false_iff_not] <;> omega
    rw [hcls e, if_neg h429, hge]
    simp only [Bool.false_eq_true, if_false]
    rw [if_neg (by tauto)]

def c7np : String → Option ℚ := fun s => if s = "7" then some 7 else none

def c7dp : String → Option Int := fun _ => none

def c7e : ErrVal := ⟨some 429, none, none, none, some "7", some "rate limited", true⟩

theorem classify_priority_witness :
    classifyRetry c7np c7dp 0 c7e = ⟨true, "rate_limit", some 7000⟩
    ∧ classifyRetry c7np c7dp 0 ⟨some 400, none, none, none, none, some "bad", true⟩
        = ⟨false, "non_retryable", none⟩ := by
  constructor
  · have h := (classify_priority c7np c7dp 0).1 c7e rfl
    rw [h]
    with_unfolding_all rfl
  · exact (classify_priority c7np c7dp 0).2.2.2.2.2.2.2
      ⟨some 400, none, none, none, none, some "bad", true⟩ (Or.inl rfl)
      (by simp) (by simp [jsOrString]) (by simp [jsOrString])

/-! ## Execution-shape lemmas for `makeRequest` -/

theorem waitStep_preserve (now : Int) (st : LimiterState) :
    ((waitStep now st).2).requestsPerMinute = st.requestsPerMinute
    ∧ ((waitStep now st).2).monthlyBudget = st.monthlyBudget
    ∧ ((waitStep now st).2).monthlySpend = st.monthlySpend
    ∧ ((waitStep now st).2).maxRetries = st.maxRetries
    ∧ ((waitStep now st).2).currentMonthKey = st.currentMonthKey
    ∧ ((waitStep now st).2).storage = st.storage := by
  unfold waitStep
  split
  · exact ⟨rfl, rfl, rfl, rfl, rfl, rfl⟩
  · dsimp only
    split
    · exact ⟨rfl, rfl, rfl, rfl, rfl, rfl⟩
    · exact ⟨rfl, rfl, rfl, rfl, rfl, rfl⟩

theorem waitLoop_preserve :
    ∀ (checks : List Int) (st st' : LimiterState) (n : Nat),
      waitLoop checks st = some (st', n) →
      st'.monthlyBudget = st.monthlyBudget ∧ st'.monthlySpend = st.monthlySpend
      ∧ st'.maxRetries = st.maxRetries ∧ st'.currentMonthKey = st.currentMonthKey
      ∧ st'.storage = st.storage := by
  intro checks
  induction checks with
  | nil => intro st st' n h; simp [waitLoop] at h
  | cons c rest ih =>
    intro st st' n h
    unfold waitLoop at h
    obtain ⟨hpres1, hpres2, hpres3, hpres4, hpres5, hpres6⟩ := waitStep_preserve c st
    cases hw : waitStep c st with
    | mk o st1 =>
      rw [hw] at h hpres1 hpres2 hpres3 hpres4 hpres5 hpres6
      cases o with
      | none =>
        replace h : some (st1, 1) = some (st', n) := h
        injection h with h
        have hst1 : st1 = st' := congrArg Prod.fst h
        rw [← hst1]
        exact ⟨hpres2, hpres3, hpres4, hpres5, hpres6⟩
      | some w =>
        replace h : (waitLoop rest st1).map (fun p => (p.1, p.2 + 1)) = some (st', n) := h
        cases hw2 : waitLoop rest st1 with
        | none => rw [hw2] at h; cases h
        | some p =>
          rw [hw2] at h
          replace h : some (p.1, p.2 + 1) = some (st', n) := h
          injection h with h
          have hst1 : p.1 = st' := congrArg Prod.fst h
          obtain ⟨h1, h2, h3, h4, h5⟩ := ih st1 p.1 p.2 (by rw [hw2])
          rw [← hst1]
          exact ⟨h1.trans hpres2, h2.trans hpres3, h3.trans hpres4,
            h4.trans hpres5, h5.trans hpres6⟩

theorem retryAux_error_state (env : Env) :
    ∀ (fuel idx : Nat) (st : LimiterState) (e : ErrVal),
      (retryAux env fuel idx st).1 = .error e → (retryAux env fuel idx st).2.1 = st := by
  intro fuel
  induction fuel with
  | zero => intro idx st e _; rfl
  | succ n ih =>
    intro idx st e h
    cases htb : tryBody env idx st with
    | ok pr => rw [retryAux_succ_ok env n idx st pr htb] at h; cases h
    | error e0 =>
      by_cases hcond : (classifyRetry env.numParse env.dateParse env.nowErr e0).shouldRetry = true
          ∧ 0 < n
      · rw [retryAux_succ_err_retry env n idx st e0 htb hcond] at h ⊢
        exact ih (idx + 1) st e h
      · rw [retryAux_succ_err_stop env n idx st e0 htb hcond]

theorem retryAux_ok_shape (env : Env) :
    ∀ (fuel idx : Nat) (st : LimiterState) (resp : OpenAIResponse),
      (retryAux env fuel idx st).1 = .ok resp →
      ∃ (i : Nat) (cost : ℚ),
        env.attempts i = .ok resp
        ∧ estimateCostUSD env.fb resp.model ((resp.usage.getD ⟨0, 0, 0⟩).prompt_tokens)
            ((resp.usage.getD ⟨0, 0, 0⟩).completion_tokens) = .ok cost
        ∧ (retryAux env fuel idx st).2.1 = recordSpend env.dRec cost st := by
  intro fuel
  induction fuel with
  | zero => intro idx st resp h; cases h
  | succ n ih =>
    intro idx st resp h
    cases htb : tryBody env idx st with
    | ok pr =>
      rw [retryAux_succ_ok env n idx st pr htb] at h ⊢
      injection h with hrr
      subst hrr
      unfold tryBody at htb
      cases hat : env.attempts idx with
      | err e0 => rw [hat] at htb; cases htb
      | ok resp0 =>
        rw [hat] at htb
        dsimp only at htb
        cases hest : estimateCostUSD env.fb resp0.model
            ((resp0.usage.getD ⟨0, 0, 0⟩).prompt_tokens)
            ((resp0.usage.getD ⟨0, 0, 0⟩).completion_tokens) with
        | error msg => rw [hest] at htb; cases htb
        | ok cost =>
          rw [hest] at htb
          injection htb with hpr
          rw [← hpr]
          exact ⟨idx, cost, hat, hest, rfl⟩
    | error e0 =>
      by_cases hcond : (classifyRetry env.numParse env.dateParse env.nowErr e0).shouldRetry = true
          ∧ 0 < n
      · rw [retryAux_succ_err_retry env n idx st e0 htb hcond] at h ⊢
        exact ih (idx + 1) st resp h
      · rw [retryAux_succ_err_stop env n idx st e0 htb hcond] at h
        cases h

theorem makeRequest_error_shape (env : Env) (st : LimiterState) (e : NormalizedError)
    (st' : LimiterState) (tr : CallTrace)
    (h : makeRequest env st = some (.error e, st', tr)) :
    (e = .budgetExceeded ∨ ∃ ev : ErrVal,
      e = normalizeError env.numParse env.dateParse env.nowErr ev)
    ∧ st'.storage = st.storage := by
  unfold makeRequest at h
  split at h
  · injection h with h
    simp only [Prod.mk.injEq, Except.error.injEq] at h
    obtain ⟨he, hst, -⟩ := h
    refine ⟨Or.inl he.symm, ?_⟩
    rw [← hst]
    exact (rotateMonthIfNeeded_window_storage env.d0 st).2.1
  · unfold proceedAfterBudgetGate at h
    rcases hw : waitLoop env.checks (rotateMonthIfNeeded env.d0 st) with _ | ⟨st1, nck⟩
    · rw [hw] at h; cases h
    · rw [hw] at h
      replace h : (match retryWithBackoff env st1 with
          | (out, st2, nCalls) => some (out, st2, (⟨nCalls, nck⟩ : CallTrace)))
          = some (.error e, st', tr) := h
      have hwpres := waitLoop_preserve env.checks _ st1 nck hw
      have hrot := (rotateMonthIfNeeded_window_storage env.d0 st).2.1
      rcases hra : retryAux env (max 1 (env.maxRetriesOpt.getD st1.maxRetries)).toNat 0 st1
        with ⟨out, st2, n2⟩
      cases out with
      | ok r =>
        have hrwb : retryWithBackoff env st1 = (.ok r, st2, n2) := by
          unfold retryWithBackoff
          rw [hra]
        rw [hrwb] at h
        replace h : some ((Except.ok r : Except NormalizedError OpenAIResponse), st2,
            (⟨n2, nck⟩ : CallTrace)) = some (.error e, st', tr) := h
        injection h with h
        exact absurd (congrArg Prod.fst h) (by simp)
      | error ev =>
        have hrwb : retryWithBackoff env st1
            = (.error (normalizeError env.numParse env.dateParse env.nowErr ev), st2, n2) := by
          unfold retryWithBackoff
          rw [hra]
        rw [hrwb] at h
        replace h : some ((Except.error (normalizeError env.numParse env.dateParse env.nowErr ev)
            : Except NormalizedError OpenAIResponse), st2, (⟨n2, nck⟩ : CallTrace))
            = some (.error e, st', tr) := h
        injection h with h
        simp only [Prod.mk.injEq, Except.error.injEq] at h
        obtain ⟨he, hst2, -⟩ := h
        have hstate : st2 = st1 := by
          have hth := retryAux_error_state env
            (max 1 (env.maxRetriesOpt.getD st1.maxRetries)).toNat 0 st1 ev (by rw [hra])
          rw [hra] at hth
          exact hth
        refine ⟨Or.inr ⟨ev, he.symm⟩, ?_⟩
        rw [← hst2, hstate, hwpres.2.2.2.2, hrot]

theorem makeRequest_ok_shape (env : Env) (st : LimiterState) (resp : OpenAIResponse)
    (st' : LimiterState) (tr : CallTrace)
    (h : makeRequest env st = some (.ok resp, st', tr)) :
    ∃ (st1 : LimiterState) (i : Nat) (cost : ℚ),
      waitLoop env.checks (rotateMonthIfNeeded env.d0 st) = some (st1, tr.admissionChecks)
      ∧ st1.monthlySpend = (rotateMonthIfNeeded env.d0 st).monthlySpend
      ∧ st1.currentMonthKey = (rotateMonthIfNeeded env.d0 st).currentMonthKey
      ∧ st1.storage = st.storage
      ∧ env.attempts i = .ok resp
      ∧ estimateCostUSD env.fb resp.model ((resp.usage.getD ⟨0, 0, 0⟩).prompt_tokens)
          ((resp.usage.getD ⟨0, 0, 0⟩).completion_tokens) = .ok cost
      ∧ st' = recordSpend env.dRec cost st1 := by
  unfold makeRequest at h
  split at h
  · injection h with h
    exact absurd (congrArg Prod.fst h) (by simp)
  · unfold proceedAfterBudgetGate at h
    rcases hw : waitLoop env.checks (rotateMonthIfNeeded env.d0 st) with _ | ⟨st1, nck⟩
    · rw [hw] at h; cases h
    · rw [hw] at h
      replace h : (match retryWithBackoff env st1 with
          | (out, st2, nCalls) => some (out, st2, (⟨nCalls, nck⟩ : CallTrace)))
          = some (.ok resp, st', tr) := h
      have hwpres := waitLoop_preserve env.checks _ st1 nck hw
      have hrot := (rotateMonthIfNeeded_window_storage env.d0 st).2.1
      rcases hra : retryAux env (max 1 (env.maxRetriesOpt.getD st1.maxRetries)).toNat 0 st1
        with ⟨out, st2, n2⟩
      cases out with
      | error ev =>
        have hrwb : retryWithBackoff env st1
            = (.error (normalizeError env.numParse env.dateParse env.nowErr ev), st2, n2) := by
          unfold retryWithBackoff
          rw [hra]
        rw [hrwb] at h
        replace h : some ((Except.error (normalizeError env.numParse env.dateParse env.nowErr ev)
            : Except NormalizedError OpenAIResponse), st2, (⟨n2, nck⟩ : CallTrace))
            = some (.ok resp, st', tr) := h
        injection h with h
        exact absurd (congrArg Prod.fst h) (by simp)
      | ok r =>
        have hrwb : retryWithBackoff env st1 = (.ok r, st2, n2) := by
          unfold retryWithBackoff
          rw [hra]
        rw [hrwb] at h
        replace h : some ((Except.ok r : Except NormalizedError OpenAIResponse), st2,
            (⟨n2, nck⟩ : CallTrace)) = some (.ok resp, st', tr) := h
        injection h with h
        simp only [Prod.mk.injEq, Except.ok.injEq] at h
        obtain ⟨hr, hst2, htr⟩ := h
        obtain ⟨i, cost, hat, hest, hrec⟩ :=
          retryAux_ok_shape env (max 1 (env.maxRetriesOpt.getD st1.maxRetries)).toNat 0 st1 resp
            (by rw [hra]; exact congrArg Except.ok hr)
        rw [hra] at hrec
        have hrec2 : st2 = recordSpend env.dRec cost st1 := hrec
        refine ⟨st1, i, cost, ?_, hwpres.2.1, hwpres.2.2.2.1,
          hwpres.2.2.2.2.trans hrot, hat, hest, ?_⟩
        · exact congrArg (fun k => some (st1, k)) (congrArg CallTrace.admissionChecks htr)
        · rw [← hst2]
          exact hrec2

/-! ## C5: the error taxonomy at the public boundary (corrected) -/

def c5e : ErrVal := ⟨some 404, none, none, some "Error", none, some "Not Found", true⟩

def c5St : LimiterState :=
  { requestsPerMinute := 0, monthlyBudget := 100, monthlySpend := 0,
    lastMinuteTimestamps := [], maxRetries := 3, currentMonthKey := "2025-09",
    storage := [] }

def c5Env : Env :=
  { numParse := fun _ => none, dateParse := fun _ => none,
    d0 := ⟨2025, 8⟩, dRec := ⟨2025, 8⟩, nowErr := 0, checks := [0],
    attempts := fun _ => .err c5e, maxRetriesOpt := some 1, fb := .mini }

/-- C5 counterexample: a failure value that is an `Error` instance with an
unclassified status (404) is surfaced by `makeRequest` as the raw value
itself (constructor `raw`), not as one of the closed taxonomy kinds and not
even re-wrapped as a generic `Error` — the raw provider error escapes. -/
theorem raw_error_escapes :
    makeRequest c5Env c5St = some (.error (.raw c5e), c5St, ⟨1, 1⟩)
    ∧ (∀ m : String, NormalizedError.raw c5e ≠ .generic m)
    ∧ NormalizedError.raw c5e ≠ .networkTimeout :=
  ⟨by with_unfolding_all rfl,
   fun m h => NormalizedError.noConfusion h,
   fun h => NormalizedError.noConfusion h⟩

/-- C5 (amended). Every failure surfaced by `makeRequest` is either
`BudgetExceeded` or the normalization of the last attempt's failure;
normalization yields `InvalidApiKey` for status 401, `InvalidRequest` for
400, `RateLimit` for 429, `ServerError` for truthy status ≥ 500,
`NetworkTimeout` for abort/timeout signals, and for everything else a
generic `Error` only when the value is not an `Error` instance — an
unclassified `Error` instance is passed through raw, so raw provider error
values can escape. -/
theorem error_taxonomy_amended :
    (∀ (env : Env) (st : LimiterState) (e : NormalizedError) (st' : LimiterState)
        (tr : CallTrace),
        makeRequest env st = some (.error e, st', tr) →
        e = .budgetExceeded
        ∨ ∃ ev : ErrVal, e = normalizeError env.numParse env.dateParse env.nowErr ev)
    ∧ (∀ (np : String → Option ℚ) (dp : String → Option Int) (now : Int) (ev : ErrVal),
        (ev.status = some 401 → normalizeError np dp now ev = .invalidApiKey)
        ∧ (ev.status = some 400 → normalizeError np dp now ev = .invalidRequest (msgOf ev))
        ∧ (ev.status = some 429 → normalizeError np dp now ev
            = .rateLimit (msgOf ev) (parseRetryAfter np dp now ev.retryAfterHeader))
        ∧ (∀ s : Int, ev.status = some s → 500 ≤ s →
            normalizeError np dp now ev = .serverError s (msgOf ev))
        ∧ (ev.status ≠ some 401 → ev.status ≠ some 400 → ev.status ≠ some 429 →
            statusTruthyGe500 ev.status = false →
            (ev.name = some "AbortError" ∨ ev.code = some "ETIMEDOUT"
              ∨ ev.code = some "ECONNRESET") →
            normalizeError np dp now ev = .networkTimeout)
        ∧ (ev.status ≠ some 401 → ev.status ≠ some 400 → ev.status ≠ some 429 →
            statusTruthyGe500 ev.status = false →
            ev.name ≠ some "AbortError" → ev.code ≠ some "ETIMEDOUT" →
            ev.code ≠ some "ECONNRESET" →
            normalizeError np dp now ev
              = if ev.isError then .raw ev else .generic (msgOf ev))) := by
  refine ⟨fun env st e st' tr h => (makeRequest_error_shape env st e st' tr h).1, ?_⟩
  intro np dp now ev
  have hne : normalizeError np dp now ev
      = (if ev.status = some 401 then .invalidApiKey
        else if ev.status = some 400 then .invalidRequest (msgOf ev)
        else if ev.status = some 429 then
          .rateLimit (msgOf ev) (parseRetryAfter np dp now ev.retryAfterHeader)
        else if statusTruthyGe500 ev.status then .serverError (ev.status.getD 0) (msgOf ev)
        else if ev.name = some "AbortError" ∨ ev.code = some "ETIMEDOUT"
            ∨ ev.code = some "ECONNRESET" then .networkTimeout
        else if ev.isError then .raw ev
        else .generic (msgOf ev) : NormalizedError) := rfl
  refine ⟨?_, ?_, ?_, ?_, ?_, ?_⟩
  · intro h
    rw [hne, if_pos h]
  · intro h
    have h401 : ¬ ev.status = some 401 := by
      rw [h]; intro hc; injection hc with hv; omega
    rw [hne, if_neg h401, if_pos h]
  · intro h
    have h401 : ¬ ev.status = some 401 := by
      rw [h]; intro hc; injection hc with hv; omega
    have h400 : ¬ ev.status = some 400 := by
      rw [h]; intro hc; injection hc with hv; omega
    rw [hne, if_neg h401, if_neg h400, if_pos h]
  · intro sv h hge
    have h401 : ¬ ev.status = some 401 := by
      rw [h]; intro hc; injection hc with hv; omega
    have h400 : ¬ ev.status = some 400 := by
      rw [h]; intro hc; injection hc with hv; omega
    have h429 : ¬ ev.status = some 429 := by
      rw [h]; intro hc; injection hc with hv; omega
    have htr : statusTruthyGe500 ev.status = true := by
      rw [h]; unfold statusTruthyGe500; simp only [decide_eq_true_eq]; omega
    rw [hne, if_neg h401, if_neg h400, if_neg h429, htr]
    simp only [if_true]
    rw [h]
    rfl
  · intro h401 h400 h429 hge hsig
    rw [hne, if_neg h401, if_neg h400, if_neg h429, hge]
    simp only [Bool.false_eq_true, if_false]
    rw [if_pos hsig]
  · intro h401 h400 h429 hge hname hc1 hc2
    rw [hne, if_neg h401, if_neg h400, if_neg h429, hge]
    simp only [Bool.false_eq_true, if_false]
    rw [if_neg (by tauto)]

theorem error_taxonomy_amended_witness :
    (NormalizedError.raw c5e = .budgetExceeded
      ∨ ∃ ev : ErrVal, NormalizedError.raw c5e
          = normalizeError c5Env.numParse c5Env.dateParse c5Env.nowErr ev)
    ∧ normalizeError c5Env.numParse c5Env.dateParse c5Env.nowErr
        ⟨some 401, none, none, none, none, none, true⟩ = .invalidApiKey :=
  ⟨error_taxonomy_amended.1 c5Env c5St (.raw c5e) c5St ⟨1, 1⟩ (by with_unfolding_all rfl),
   (error_taxonomy_amended.2 c5Env.numParse c5Env.dateParse c5Env.nowErr
      ⟨some 401, none, none, none, none, none, true⟩).1 rfl⟩

/-! ## C3: spend is recorded exactly on success -/

/-- C3. A `makeRequest` call that succeeds with a response carrying usage
`(p, c)` for model `M` increases the current month's recorded spend (memory
and ledger entry) to `round6 (oldSpend + estimateCostUSD M p c)`; a call
that fails leaves the spend ledger untouched. The month-key hypothesis says
the month does not roll over between the budget check and the recording. -/
theorem spend_recorded_only_on_success :
    (∀ (env : Env) (st : LimiterState) (resp : OpenAIResponse) (st' : LimiterState)
        (tr : CallTrace) (u : Usage) (cost : ℚ),
        makeRequest env st = some (.ok resp, st', tr) →
        resp.usage = some u →
        estimateCostUSD env.fb resp.model u.prompt_tokens u.completion_tokens = .ok cost →
        getMonthKey env.dRec = (rotateMonthIfNeeded env.d0 st).currentMonthKey →
        st'.monthlySpend = round6 ((rotateMonthIfNeeded env.d0 st).monthlySpend + cost)
        ∧ st'.storage.lookup (rotateMonthIfNeeded env.d0 st).currentMonthKey
            = some st'.monthlySpend)
    ∧ (∀ (env : Env) (st : LimiterState) (e : NormalizedError) (st' : LimiterState)
        (tr : CallTrace),
        makeRequest env st = some (.error e, st', tr) → st'.storage = st.storage) := by
  constructor
  · intro env st resp st' tr u cost h hu hcost hkey
    obtain ⟨st1, i, cost2, hw, hsp, hkey1, hstor, hat, hest, hrec⟩ :=
      makeRequest_ok_shape env st resp st' tr h
    rw [hu] at hest
    simp only [Option.getD_some] at hest
    have hc2 : cost2 = cost := by
      have h2 := hest.symm.trans hcost
      injection h2
    rw [hc2] at hrec
    have hkeq : getMonthKey env.dRec = st1.currentMonthKey := by
      rw [hkey, ← hkey1]
    have hrotid : rotateMonthIfNeeded env.dRec st1 = st1 := rotateMonthIfNeeded_of_eq hkeq
    obtain ⟨hspec1, hspec2⟩ := recordSpend_spec env.dRec cost st1
    rw [hrotid] at hspec1 hspec2
    subst hrec
    refine ⟨?_, ?_⟩
    · rw [hspec1, hsp]
    · rw [← hkey1, hspec2, hspec1]
  · intro env st e st' tr h
    exact (makeRequest_error_shape env st e st' tr h).2

def c3Resp : OpenAIResponse := ⟨"gpt-4o-mini", some ⟨100, 50, 150⟩⟩

def c3St : LimiterState :=
  { requestsPerMinute := 0, monthlyBudget := 1000, monthlySpend := 0,
    lastMinuteTimestamps := [], maxRetries := 3, currentMonthKey := "2025-09",
    storage := [] }

def c3Env : Env :=
  { numParse := fun _ => none, dateParse := fun _ => none,
    d0 := ⟨2025, 8⟩, dRec := ⟨2025, 8⟩, nowErr := 0, checks := [0],
    attempts := fun _ => .ok c3Resp, maxRetriesOpt := none, fb := .mini }

def c3StOut : LimiterState :=
  { requestsPerMinute := 0, monthlyBudget := 1000, monthlySpend := 9/50000,
    lastMinuteTimestamps := [], maxRetries := 3, currentMonthKey := "2025-09",
    storage := [("2025-09", 9/50000)] }

def c3EnvF : Env :=
  { numParse := fun _ => none, dateParse := fun _ => none,
    d0 := ⟨2025, 8⟩, dRec := ⟨2025, 8⟩, nowErr := 0, checks := [0],
    attempts := fun _ => .err ⟨some 500, none, none, none, none, some "boom", true⟩,
    maxRetriesOpt := some 2, fb := .mini }

theorem spend_recorded_only_on_success_witness :
    (c3StOut.monthlySpend = round6 ((rotateMonthIfNeeded c3Env.d0 c3St).monthlySpend + 9/50000)
      ∧ c3StOut.storage.lookup (rotateMonthIfNeeded c3Env.d0 c3St).currentMonthKey
          = some c3StOut.monthlySpend)
    ∧ c3St.storage = c3St.storage :=
  ⟨spend_recorded_only_on_success.1 c3Env c3St c3Resp c3StOut ⟨1, 1⟩ ⟨100, 50, 150⟩ (9/50000)
      (by with_unfolding_all rfl) rfl (by with_unfolding_all rfl) (by with_unfolding_all rfl),
   spend_recorded_only_on_success.2 c3EnvF c3St (.serverError 500 "boom") c3St ⟨2, 1⟩
      (by with_unfolding_all rfl)⟩

/-! ## C9: a response without a usage field is billed zero -/

/-- C9. When `makeRequest` succeeds with a response carrying no usage field,
both token counts default to zero, the billed cost is exactly
`estimateCostUSD model 0 0 = 0`, and the monthly total is only re-rounded
(`round6` of itself). -/
theorem missing_usage_zero_cost (env : Env) (st : LimiterState) (resp : OpenAIResponse)
    (st' : LimiterState) (tr : CallTrace)
    (h : makeRequest env st = some (.ok resp, st', tr))
    (hu : resp.usage = none)
    (hkey : getMonthKey env.dRec = (rotateMonthIfNeeded env.d0 st).currentMonthKey) :
    estimateCostUSD env.fb resp.model 0 0 = .ok 0
    ∧ st'.monthlySpend = round6 ((rotateMonthIfNeeded env.d0 st).monthlySpend) := by
  obtain ⟨st1, i, cost, hw, hsp, hkey1, hstor, hat, hest, hrec⟩ :=
    makeRequest_ok_shape env st resp st' tr h
  rw [hu] at hest
  simp only [Option.getD_none] at hest
  have hest0 : estimateCostUSD env.fb resp.model 0 0 = .ok cost := hest
  have hr60 : round6 0 = 0 := by
    unfold round6
    norm_num
  have hc0 : cost = 0 := by
    unfold estimateCostUSD at hest0
    cases hres : resolvePricing env.fb resp.model with
    | error m => rw [hres] at hest0; cases hest0
    | ok pr =>
      rw [hres] at hest0
      replace hest0 : (if (0 : ℚ) < 0 ∨ (0 : ℚ) < 0 then
            (Except.error "Token counts must be >= 0" : Except String ℚ)
          else Except.ok (round6 ((0 : ℚ) / 1000 * pr.inputPer1K
            + (0 : ℚ) / 1000 * pr.outputPer1K))) = Except.ok cost := hest0
      rw [if_neg (by norm_num)] at hest0
      injection hest0 with hc
      rw [← hc]
      rw [show (0 : ℚ) / 1000 * pr.inputPer1K + 0 / 1000 * pr.outputPer1K = 0 by ring]
      exact hr60
    
  subst hc0
  refine ⟨hest0, ?_⟩
  have hkeq : getMonthKey env.dRec = st1.currentMonthKey := by
    rw [hkey, ← hkey1]
  have hrotid : rotateMonthIfNeeded env.dRec st1 = st1 := rotateMonthIfNeeded_of_eq hkeq
  have hspec1 := (recordSpend_spec env.dRec 0 st1).1
  rw [hrotid] at hspec1
  subst hrec
  rw [hspec1, add_zero, hsp]

def c9Resp : OpenAIResponse := ⟨"gpt-4o", none⟩

def c9St : LimiterState :=
  { requestsPerMinute := 0, monthlyBudget := 1000, monthlySpend := 1/10,
    lastMinuteTimestamps := [], maxRetries := 3, currentMonthKey := "2025-09",
    storage := [("2025-09", 1/10)] }

def c9Env : Env :=
  { numParse := fun _ => none, dateParse := fun _ => none,
    d0 := ⟨2025, 8⟩, dRec := ⟨2025, 8⟩, nowErr := 0, checks := [0],
    attempts := fun _ => .ok c9Resp, maxRetriesOpt := none, fb := .mini }

def c9StOut : LimiterState :=
  { requestsPerMinute := 0, monthlyBudget := 1000, monthlySpend := 1/10,
    lastMinuteTimestamps := [], maxRetries := 3, currentMonthKey := "2025-09",
    storage := [("2025-09", 1/10)] }

theorem missing_usage_zero_cost_witness :
    estimateCostUSD c9Env.fb c9Resp.model 0 0 = .ok 0
    ∧ c9StOut.monthlySpend = round6 ((rotateMonthIfNeeded c9Env.d0 c9St).monthlySpend) :=
  missing_usage_zero_cost c9Env c9St c9Resp c9StOut ⟨1, 1⟩
    (by with_unfolding_all rfl) rfl (by with_unfolding_all rfl)

/-! ## C2: admission respects the trailing 60-second window -/

theorem waitStep_admit (now : Int) (st : LimiterState) (hrpm : 0 < st.requestsPerMinute)
    (hlen : ((st.lastMinuteTimestamps.filter (fun t => decide (now - t < 60000))).length : Int)
      < st.requestsPerMinute) :
    waitStep now st = (none, { st with lastMinuteTimestamps := (
      st.lastMinuteTimestamps.filter (fun t => decide (now - t < 60000)) ++ [now]) }) := by
  unfold waitStep
  rw [if_neg (by omega)]
  dsimp only
  rw [if_pos hlen]

theorem waitStep_full (now : Int) (st : LimiterState) (hrpm : 0 < st.requestsPerMinute)
    (hlen : st.requestsPerMinute
      ≤ ((st.lastMinuteTimestamps.filter (fun t => decide (now - t < 60000))).length : Int)) :
    waitStep now st = (some (max 0 (60000 - (now
        - (st.lastMinuteTimestamps.filter (fun t => decide (now - t < 60000))).headI))),
      { st with lastMinuteTimestamps := (
        st.lastMinuteTimestamps.filter (fun t => decide (now - t < 60000))) }) := by
  unfold waitStep
  rw [if_neg (by omega)]
  dsimp only
  rw [if_neg (by omega)]

theorem admittedTimes_cons_admit {rpm now : Int} {window : List Int} {st' : LimiterState}
    (rest : List Int) (h : waitStep now (windowState rpm window) = (none, st')) :
    admittedTimes rpm (now :: rest) window
      = now :: admittedTimes rpm rest st'.lastMinuteTimestamps := by
  conv_lhs => unfold admittedTimes
  rw [h]

theorem admittedTimes_cons_wait {rpm now : Int} {window : List Int} {w : Int}
    {st' : LimiterState} (rest : List Int)
    (h : waitStep now (windowState rpm window) = (some w, st')) :
    admittedTimes rpm (now :: rest) window
      = admittedTimes rpm rest st'.lastMinuteTimestamps := by
  conv_lhs => unfold admittedTimes
  rw [h]

theorem admittedTimes_invariant (rpm : Int) (hrpm : 0 < rpm) :
    ∀ (checks : List Int) (c : Int) (admitted : List Int),
      List.Chain' (· ≤ ·) (c :: checks) →
      (∀ t ∈ admitted, t ≤ c) →
      (∀ a : Int, (((admitted.filter
          (fun t => decide (a < t ∧ t ≤ a + 60000))).length : Int) ≤ rpm)) →
      ∀ a : Int, (((admitted
          ++ admittedTimes rpm checks (admitted.filter (fun t => decide (c - t < 60000)))).filter
          (fun t => decide (a < t ∧ t ≤ a + 60000))).length : Int) ≤ rpm := by
  intro checks
  induction checks with
  | nil =>
    intro c admitted hchain hle hcount a
    unfold admittedTimes
    simpa using hcount a
  | cons c' rest ih =>
    intro c admitted hchain hle hcount a
    have hcc : c ≤ c' := (List.chain'_cons.mp hchain).1
    have hchain' : List.Chain' (· ≤ ·) (c' :: rest) := (List.chain'_cons.mp hchain).2
    have hprune : (admitted.filter (fun t => decide (c - t < 60000))).filter
        (fun t => decide (c' - t < 60000))
        = admitted.filter (fun t => decide (c' - t < 60000)) := by
      rw [List.filter_filter]
      apply List.filter_congr
      intro t ht
      by_cases hct : c' - t < 60000
      · have hc2 : c - t < 60000 := by omega
        simp [hct, hc2]
      · simp [hct]
    by_cases hcap : ((admitted.filter (fun t => decide (c' - t < 60000))).length : Int) < rpm
    · have hstep := waitStep_admit c'
        (windowState rpm (admitted.filter (fun t => decide (c - t < 60000)))) hrpm
        (by
          show ((admitted.filter (fun t => decide (c - t < 60000))).filter
            (fun t => decide (c' - t < 60000))).length < (rpm : Int)
          rw [hprune]
          exact hcap)
      have heq := admittedTimes_cons_admit rest hstep
      replace heq : admittedTimes rpm (c' :: rest)
          (admitted.filter (fun t => decide (c - t < 60000)))
          = c' :: admittedTimes rpm rest
            ((admitted.filter (fun t => decide (c - t < 60000))).filter
              (fun t => decide (c' - t < 60000)) ++ [c']) := heq
      rw [hprune] at heq
      have hwin : admitted.filter (fun t => decide (c' - t < 60000)) ++ [c']
          = (admitted ++ [c']).filter (fun t => decide (c' - t < 60000)) := by
        rw [List.filter_append]
        have : [c'].filter (fun t => decide (c' - t < 60000)) = [c'] := by
          simp
        rw [this]
      rw [hwin] at heq
      rw [heq]
      have hgoal : admitted ++ c' :: admittedTimes rpm rest
          ((admitted ++ [c']).filter (fun t => decide (c' - t < 60000)))
          = (admitted ++ [c']) ++ admittedTimes rpm rest
            ((admitted ++ [c']).filter (fun t => decide (c' - t < 60000))) := by
        rw [List.append_assoc]
        rfl
      rw [hgoal]
      refine ih c' (admitted ++ [c']) hchain' ?_ ?_ a
      · intro t ht
        rcases List.mem_append.mp ht with h1 | h1
        · exact le_trans (hle t h1) hcc
        · rw [List.mem_singleton.mp h1]
      · intro b
        rw [List.filter_append]
        by_cases hin : b < c' ∧ c' ≤ b + 60000
        · have hone : [c'].filter (fun t => decide (b < t ∧ t ≤ b + 60000)) = [c'] := by
            simp [hin.1, hin.2]
          rw [hone]
          have himp : ∀ t : Int, (fun t => decide (b < t ∧ t ≤ b + 60000)) t = true →
              (fun t => decide (c' - t < 60000)) t = true := by
            intro t hbt
            simp only [decide_eq_true_eq] at hbt ⊢
            omega
          have hsub : (admitted.filter (fun t => decide (b < t ∧ t ≤ b + 60000))).length
              ≤ (admitted.filter (fun t => decide (c' - t < 60000))).length :=
            (List.monotone_filter_right admitted himp).length_le
          rw [List.length_append, List.length_singleton]
          omega
        · have hnone : [c'].filter (fun t => decide (b < t ∧ t ≤ b + 60000)) = [] := by
            simp only [List.filter_cons, List.filter_nil]
            rw [if_neg (by simpa using hin)]
          rw [hnone, List.append_nil]
          exact hcount b
    · have hstep := waitStep_full c'
        (windowState rpm (admitted.filter (fun t => decide (c - t < 60000)))) hrpm
        (by
          show (rpm : Int) ≤ ((admitted.filter (fun t => decide (c - t < 60000))).filter
            (fun t => decide (c' - t < 60000))).length
          rw [hprune]
          omega)
      have heq := admittedTimes_cons_wait rest hstep
      replace heq : admittedTimes rpm (c' :: rest)
          (admitted.filter (fun t => decide (c - t < 60000)))
          = admittedTimes rpm rest
            ((admitted.filter (fun t => decide (c - t < 60000))).filter
              (fun t => decide (c' - t < 60000))) := heq
      rw [hprune] at heq
      rw [heq]
      exact ih c' admitted hchain' (fun t ht => le_trans (hle t ht) hcc) hcount a

/-- C2. Over any monotone sequence of capacity checks on the shared window,
no sliding 60-second interval `(a, a + 60000]` contains more than `N`
admissions (timestamps older than 60 s are pruned at each check, and one
timestamp is pushed per admission); and when the pruned window is full,
`waitForRateLimit` sleeps exactly `max 0 (60000 - (now - oldest))`
milliseconds (computed from the oldest retained timestamp) before
re-checking. -/
theorem admission_respects_window :
    (∀ rpm : Int, 0 < rpm → ∀ checks : List Int, List.Chain' (· ≤ ·) checks →
      ∀ a : Int, (((admittedTimes rpm checks []).filter
          (fun t => decide (a < t ∧ t ≤ a + 60000))).length : Int) ≤ rpm)
    ∧ (∀ (now : Int) (st : LimiterState), 0 < st.requestsPerMinute →
        st.requestsPerMinute ≤ ((st.lastMinuteTimestamps.filter
            (fun t => decide (now - t < 60000))).length : Int) →
        waitStep now st = (some (max 0 (60000 - (now
            - (st.lastMinuteTimestamps.filter (fun t => decide (now - t < 60000))).headI))),
          { st with lastMinuteTimestamps := (
              st.lastMinuteTimestamps.filter (fun t => decide (now - t < 60000))) })) := by
  constructor
  · intro rpm hrpm checks hmono a
    cases checks with
    | nil =>
      unfold admittedTimes
      simp
      omega
    | cons c0 rest =>
      have h := admittedTimes_invariant rpm hrpm (c0 :: rest) c0 []
        (List.chain'_cons.mpr ⟨le_refl c0, hmono⟩) (by simp) (by intro b; simp; omega) a
      simpa using h
  · intro now st hrpm hlen
    exact waitStep_full now st hrpm hlen

theorem admission_respects_window_witness :
    (((admittedTimes 1 [0, 10] []).filter
        (fun t => decide ((-1 : Int) < t ∧ t ≤ -1 + 60000))).length : Int) ≤ 1
    ∧ waitStep 10 (windowState 1 [0]) = (some 59990, windowState 1 [0]) := by
  constructor
  · exact admission_respects_window.1 1 (by norm_num) [0, 10]
      (List.chain'_cons.mpr ⟨by norm_num, List.chain'_singleton 10⟩) (-1)
  · have h := admission_respects_window.2 10 (windowState 1 [0])
      (of_decide_eq_true (by with_unfolding_all rfl))
      (of_decide_eq_true (by with_unfolding_all rfl))
    exact h.trans (by with_unfolding_all rfl)

end Mediator
